import Mathlib

/-!
Verification of the proof-publishing orchestrator in `apps/src/bin/publisher.rs`.

The Rust program is shallowly embedded: bytes are `Nat`s below 256, byte
sequences are `List Nat`, machine integers (`U256`) are `Nat`s below `2 ^ 256`,
and fallible steps return `Except` / `Option`.  External collaborators
(the two provers, the JWT issuer, bincode serialization) are parameters of the
pipeline functions, matching the capability boundaries of the program.
The alloy ABI codec (`abi_encode` / `abi_decode`, selector computation via
Keccak-256) is embedded concretely, byte for byte.
-/

namespace Publisher

/-! ## Big-endian byte encoding of unsigned integers -/

/-- `w`-byte big-endian encoding of `n` (the layout `U256::abi_encode` uses
with `w = 32`): most significant byte first. -/
def natToBeBytes : Nat → Nat → List Nat
  | 0, _ => []
  | w + 1, n => natToBeBytes w (n / 256) ++ [n % 256]

/-- Big-endian value of a byte sequence. -/
def beBytesToNat (bs : List Nat) : Nat :=
  bs.foldl (fun a b => a * 256 + b) 0

/-! ## Keccak-256 (the hash behind alloy's function-selector computation) -/

/-- Left-rotation of a 64-bit lane. -/
def rotl64 (x n : Nat) : Nat :=
  (((x <<< n) % 2 ^ 64) ||| (x >>> (64 - n)))

/-- Fill the Keccak ρ rotation-offset table by walking the π path
`(x, y) ↦ (y, (2x + 3y) mod 5)` from `(1, 0)`, giving lane `x + 5 * y` the
offset `(t + 1)(t + 2) / 2 mod 64` at step `t` (lane `(0, 0)` stays `0`). -/
def rhoFill : Nat → Nat → Nat → Nat → List Nat → List Nat
  | 0, _, _, _, offs => offs
  | steps + 1, t, x, y, offs =>
    rhoFill steps (t + 1) y ((2 * x + 3 * y) % 5)
      (offs.set (x + 5 * y) ((t + 1) * (t + 2) / 2 % 64))

/-- Keccak ρ rotation offsets, indexed by lane `x + 5 * y`. -/
def rhoOffsets : List Nat := rhoFill 24 0 1 0 (List.replicate 25 0)

/-- One step of the degree-8 LFSR of FIPS 202 §3.2.5
(`x⁸ + x⁶ + x⁵ + x⁴ + 1`, as the byte-feedback mask `0x71`). -/
def lfsrNext (R : Nat) : Nat :=
  ((R <<< 1) ^^^ ((R >>> 7) * 0x71)) &&& 0xFF

/-- The round-constant bit `rc(t)`: the low bit of the LFSR run `t` steps
from `1`. -/
def rcBit (t : Nat) : Nat :=
  (lfsrNext^[t] 1) &&& 1

/-- Keccak ι round constants for the 24 rounds of Keccak-f[1600]: round `i`
has bit `2 ^ j - 1` set to `rc(j + 7 i)` for `j = 0, …, 6`. -/
def keccakRC : List Nat :=
  (List.range 24).map (fun i =>
    (List.range 7).foldl (fun acc j => acc ^^^ (rcBit (j + 7 * i) <<< (2 ^ j - 1))) 0)

/-- Keccak θ step on a 25-lane state (lane `(x, y)` at index `x + 5 * y`). -/
def theta (A : List Nat) : List Nat :=
  let C := (List.range 5).map (fun x =>
    A.getD x 0 ^^^ A.getD (x + 5) 0 ^^^ A.getD (x + 10) 0
      ^^^ A.getD (x + 15) 0 ^^^ A.getD (x + 20) 0)
  let D := (List.range 5).map (fun x =>
    C.getD ((x + 4) % 5) 0 ^^^ rotl64 (C.getD ((x + 1) % 5) 0) 1)
  (List.range 25).map (fun i => A.getD i 0 ^^^ D.getD (i % 5) 0)

/-- Keccak ρ and π steps: `B[y, (2x+3y) mod 5] = rotl(A[x, y], r[x, y])`,
computed here by inverting the index map (`2⁻¹ = 3 (mod 5)`). -/
def rhoPi (A : List Nat) : List Nat :=
  (List.range 25).map (fun j =>
    let X := j % 5
    let Y := j / 5
    let x := (3 * (Y + 2 * X)) % 5
    let y := X
    rotl64 (A.getD (x + 5 * y) 0) (rhoOffsets.getD (x + 5 * y) 0))

/-- Keccak χ step. -/
def chi (B : List Nat) : List Nat :=
  (List.range 25).map (fun j =>
    let X := j % 5
    let Y := j / 5
    B.getD j 0 ^^^ ((B.getD ((X + 1) % 5 + 5 * Y) 0 ^^^ (2 ^ 64 - 1))
      &&& B.getD ((X + 2) % 5 + 5 * Y) 0))

/-- One round of Keccak-f[1600]: θ, ρ, π, χ, then ι with round constant `rc`. -/
def keccakRound (A : List Nat) (rc : Nat) : List Nat :=
  let C := chi (rhoPi (theta A))
  C.set 0 (C.getD 0 0 ^^^ rc)

/-- The Keccak-f[1600] permutation: 24 rounds. -/
def keccakF (A : List Nat) : List Nat :=
  keccakRC.foldl keccakRound A

/-- A 64-bit lane from (up to) 8 bytes, little-endian. -/
def bytesToLane (bs : List Nat) : Nat :=
  bs.foldr (fun b acc => acc * 256 + b) 0

/-- The 8 little-endian bytes of a 64-bit lane. -/
def laneToBytes (n : Nat) : List Nat :=
  (List.range 8).map (fun i => (n >>> (8 * i)) % 256)

/-- XOR one 136-byte rate block into the state and permute. -/
def absorbBlock (st block : List Nat) : List Nat :=
  keccakF ((List.range 25).map (fun i =>
    st.getD i 0 ^^^ (if i < 17 then bytesToLane ((block.drop (8 * i)).take 8) else 0)))

/-- Keccak `pad10*1` padding to the 136-byte rate, with the `0x01` domain byte
of legacy Keccak-256 (as used for Ethereum function selectors). -/
def keccakPad (msg : List Nat) : List Nat :=
  let q := 136 - msg.length % 136
  if q = 1 then msg ++ [0x81]
  else msg ++ [0x01] ++ List.replicate (q - 2) 0 ++ [0x80]

/-- Absorb a padded message block by block (`fuel` bounds the recursion). -/
def absorbAll : Nat → List Nat → List Nat → List Nat
  | 0, st, _ => st
  | fuel + 1, st, msg =>
    if msg.isEmpty then st
    else absorbAll fuel (absorbBlock st (msg.take 136)) (msg.drop 136)

/-- Keccak-256 of a byte sequence: pad, absorb, squeeze the first 32 bytes. -/
def keccak256 (msg : List Nat) : List Nat :=
  let padded := keccakPad msg
  let st := absorbAll padded.length (List.replicate 25 0) padded
  ((st.take 4).map laneToBytes).flatten

/-- UTF-8 bytes of a string (ASCII for the signatures used here). -/
def strBytes (s : String) : List Nat :=
  s.toUTF8.toList.map (fun b => b.toNat)

/-- The 4-byte Ethereum function selector of a signature string: the first
four bytes of the Keccak-256 hash of the signature (what the alloy `sol!`
macro computes for each generated call type). -/
def selectorOf (sig : String) : List Nat :=
  (keccak256 (strBytes sig)).take 4

/-! ## ABI encoding of the two `IEvenNumber` calls

The `sol!` block in `publisher.rs` declares
`function set(uint256 x, bytes32 post_state_digest, bytes calldata seal)` and
`function set_jwt(uint256 x, bytes32 post_state_digest, bytes calldata seal)`.
`abi_encode` on a generated call value produces the 4-byte selector followed
by the standard ABI tuple encoding of the arguments: a 96-byte head
(`x` word, digest word, offset word pointing at 96) and a tail holding the
seal's length word and its zero-padded contents. -/

/-- The signature string of `IEvenNumber.set`. -/
def setSignature : String := "set(uint256,bytes32,bytes)"

/-- The signature string of `IEvenNumber.set_jwt`. -/
def setJwtSignature : String := "set_jwt(uint256,bytes32,bytes)"

/-- Selector of `IEvenNumber.set`. -/
def setSelector : List Nat := selectorOf setSignature

/-- Selector of `IEvenNumber.set_jwt`. -/
def setJwtSelector : List Nat := selectorOf setJwtSignature

/-- `n` rounded up to the next multiple of 32 (ABI word padding). -/
def ceil32 (n : Nat) : Nat := (n + 31) / 32 * 32

/-- Zero-pad a byte sequence on the right to a multiple of 32 bytes. -/
def padRight32 (s : List Nat) : List Nat :=
  s ++ List.replicate (ceil32 s.length - s.length) 0

/-- ABI tuple encoding of `(uint256 x, bytes32 digest, bytes seal)`:
head words for `x`, the digest, and the tail offset (96), then the tail
holding the seal length and the zero-padded seal bytes. -/
def abiEncodeArgs (x : Nat) (digest sealBytes : List Nat) : List Nat :=
  natToBeBytes 32 x ++ digest ++ natToBeBytes 32 96
    ++ natToBeBytes 32 sealBytes.length ++ padRight32 sealBytes

/-- `IEvenNumber::IEvenNumberCalls::set(setCall { x, post_state_digest, seal }).abi_encode()`. -/
def encodeSetCall (x : Nat) (digest sealBytes : List Nat) : List Nat :=
  setSelector ++ abiEncodeArgs x digest sealBytes

/-- `IEvenNumber::IEvenNumberCalls::set_jwt(set_jwtCall { x, post_state_digest, seal }).abi_encode()`. -/
def encodeSetJwtCall (x : Nat) (digest sealBytes : List Nat) : List Nat :=
  setJwtSelector ++ abiEncodeArgs x digest sealBytes

/-- The collaborator codec `U256::abi_decode(data, true)` (alloy): reads one
32-byte big-endian word; errors (`None`) on fewer than 32 bytes (`Overrun`)
and, because validation is on, whenever the input is not exactly the 32-byte
encoded size. -/
def abiDecodeU256 (data : List Nat) : Option Nat :=
  if data.length = 32 then some (beBytesToNat data) else none

/-- Canonical ABI decoding of the argument tuple
`(uint256, bytes32, bytes)` from the byte region after the selector:
reads the three head words, follows the tail offset, reads the seal length,
and (validation) requires the total length to be exactly the encoded size. -/
def abiDecodeArgs (body : List Nat) : Option (Nat × List Nat × List Nat) :=
  if 128 ≤ body.length then
    let x := beBytesToNat (body.take 32)
    let digest := (body.drop 32).take 32
    let off := beBytesToNat ((body.drop 64).take 32)
    if off = 96 then
      let len := beBytesToNat ((body.drop 96).take 32)
      if body.length = 128 + ceil32 len then
        some (x, digest, (body.drop 128).take len)
      else none
    else none
  else none

/-! ## The pipeline of `main` -/

/-- The two guest methods selectable on the command line (`--method`). -/
inductive Method
  | IsEven
  | Jwt
deriving DecidableEq

/-- The two prover backends selectable on the command line (`--prover`). -/
inductive Prover
  | Bonsai
  | Local
deriving DecidableEq

/-- The guest program blobs from the `methods` crate; opaque identifiers here. -/
inductive GuestProgram
  | IS_EVEN_ELF
  | JWT_ELF
deriving DecidableEq

/-- `jwt_core::CustomClaims`. -/
structure CustomClaims where
  subject : String
deriving DecidableEq

/-- The errors on which the run aborts (each `?` / `.expect` in `main`). -/
inductive PublisherError
  | issuerParseError
  | signingError
  | serializationError
  | proverError
  | journalDecodeError
deriving DecidableEq

/-- The result triple returned by `BonsaiProver::prove` / `LocalProver::prove`:
journal bytes, the 32-byte post-state digest (`FixedBytes<32>`, modelled as a
byte list of length 32), and the seal bytes. -/
structure ProofResult where
  journal : List Nat
  postStateDigest : List Nat
  sealBytes : List Nat
deriving DecidableEq

/-- The external JWT collaborators used by the `Method::Jwt` arm:
`str::parse::<Issuer>`, `Issuer::generate_token`, and `bincode::serialize`.
`I` and `T` are the collaborator's `Issuer` and token types. -/
structure SignerOps (I T : Type) where
  parseIssuer : String → Option I
  generateToken : I → CustomClaims → Option T
  serializeToken : T → Option (List Nat)

/-- The compiled-in RSA JWK `SECRET_KEY` static from `publisher.rs`
(braces written as escapes). -/
def SECRET_KEY : String :=
  "
    \x7b
      \"alg\": \"RS256\",
      \"d\": \"YuO1XZkYSwDRgauXQe6q1u8fET3S7x7g4N8uE49rdt7g3-O9q-Hwn_nQNiRr9o7Uslf7X8sL6txraQy7TdPUuSkaULpRNo2FoVLLoO2eACWwPtCG4n9wuvjnz7qCh9s3tfgOKxMA_riKkS8O7BxPH54rd7Ry1i6HN3TSYKYwxZxG4HFLhcewX6Q1KdGXdP7xVAsZ5lEpCQbhY5IKUzBZ5WIZpSTk10AadkVuwS622QT-9efk6PBWDyM48_udMdDo1HEcHsAdxrUMRdw_5uzVajQzZhNAmALXHCPT79P0qahzdYlUSHauT1XxU7z-KoCYVqt3z6epgYDcKmLzGkqIkSXUHxcVN-MTSGNET_dhio0tHG-jV3wB5jfsgayoIZCeTPF-F-nDwn8Cyz18uee_Y7U53NTtEXGqB9npZyu7SibTztwSeLs6zH965d1VTmUCxH8CWqizugfQY8ibNgVCd42naAuWbOmxYEjyelmHf_BS0Vb7NwpW9cuaODOjpjCz\",
      \"dp\": \"DOIAbWzet_-ZSED61WWvG9Byao9uQh3SSvtvAUa4WhWEq3lfGqt1wEDneOds1IrxNF7Y2rV_iHBVA2DWB9ctdMxau3DteGumbMzEObQIjDs7SP45plImxHzZbXgTIB-DWiujJmwDNJUIaB80q1sjeeBTJ9rfaU0ZNMFO26koOKQGoNDuuJTgejnRwGdIGhoOLcT_dus-7CNWY1pRBvTGhcEOygRE_icb8JzNoKo90fwZf0ACdxiFc6G_RUCXapap\",
      \"dq\": \"0yFAtOVm0-fPLg62RcALyhIXsyEOd25W0YFmWIzb6Bh5kbMruA-befX-ANnNGcktBGgY7QGN6myb-K8zRCOYfVt5zs0EFEFCHc6NO8UoSJCItOZFMdaLsG21MqOdtQRQi4F_TJ2yoqu1S81O-Y08wtFE0F8hVe7sGuJIoRtY5yF_Swwaw3ST-XMfghpbhvc71zVF7VyPlyrqU-NeKimBpuEfHuTKQSSudY9eLNdypyE71RC6q_xWxWzTSqu3pih5\",
      \"e\": \"AQAB\",
      \"key_ops\": [
        \"sign\"
      ],
      \"kty\": \"RSA\",
      \"n\": \"zcQwXx3EevOSkfH0VSWqtfmWTL4c2oIzW6u83qKO1W7XjLgTqpryL5vNCaxbVTkpU-GZctit0n6kj570tfny_sy6pb2q9wlvFBmDVyD-nL5oNjP5s3qEfvy15Bl9vMGFf3zycqMaVg_7VRVwK5d8QzpnVC0AGT10QdHnyGCadfPJqazTuVRp1f3ecK7bg7596sgVb8d9Wpaz2XPykQPfphsEb40vcp1tPN95-eRCgA24PwfUaKYHQQFMEQY_atJWbffyJ91zsBRy8fEQdfuQVZIRVQgO7FTsmLmQAHxR1dl2jP8B6zonWmtqWoMHoZfa-kmTPB4wNHa8EaLvtQ1060qYFmQWWumfNFnG7HNq2gTHt1cN1HCwstRGIaU_ZHubM_FKH_gLfJPKNW0KWML9mQQzf4AVov0Yfvk89WxY8ilSRx6KodJuIKKqwVh_58PJPLmBqszEfkTjtyxPwP8X8xRXfSz-vTU6vESCk3O6TRknoJkC2BJZ_ONQ0U5dxLcx\",
      \"p\": \"-TQVt9yl_0S0uvUM37L3WSDPkOn_gy34zpAEllhgx1HQUg_pVbqEDwKzEIpBlZfbrcszMlmiJhKL6q4y0_a6e3O5QnfB1vrGTjhLcfcaUK6o-I7bxabrpZmvLIsTqSdAgUijXe8yhQFIoCjc1MPD7icRPc-V7P9IYE2ls9X6sgo4lUZjQAuQtOo8ndlZ3uqP2sMKRR3CS7tHiF1r_zq_NXcf98Sve-1rRnqT6GpGcJRcvVFu2wy8TyCPMAvWh903\",
      \"q\": \"02DUlUJrcTQ-mHMmg-V5qjxrtTKMmjqXpN0pgkXhM8_DWCrqKL9sXb1MKXQcbAZYr-lWmtBwzXeF4Qn66dRHpjlQLhSA947UxjuEtbhWx3wKGG460ZH026qcRr3QspcKZuiX2zISHb8suMl2lhDDSggCAjybs0l72pNHPIny9pucnwqc9ihrbeu68LlUpnQtS-Okt4j5ndVc1l1Vwv2PFt2PxrLmQkqdwRMla1F7r0vtgM7NIZz9XPszSrkxTILX\",
      \"qi\": \"3yweZ6b2adwqUrCvyvK5ub5XAjKOh1N7AoFqYQFpD_ho41ThyWErfjTztDlgqqTHo3wHyR49cq-L6aAuerNTPW7VAXTobC8vZSxIKazOU9p0xcDYSaGGH_IES62MAxJu1rdyAOrq_MLsqvBckVancmW6lVWQr27wDNTNwskkPpgDXwAygWSCBbM-oZOsWamge0SadQJOCd7Rr33aLfWFKaajl7FnQzX6Wh8Q0gLn2PRDnC7V1gEVWY3fWSzs4obj\",
      \"use\": \"sig\",
      \"kid\": \"6ab0e8e4bc121fc287e35d3e5e0efb8a\"
    \x7d
"

/-- The input-encoding step of `main` (lines 94–111): for `IsEven` the ABI
encoding of the input; for `Jwt` the bincode serialization of a token signed
over the fixed claims, with each `.expect` modelled as an aborting error. -/
def encodeInput {I T : Type} (sg : SignerOps I T)
    (m : Method) (input : Nat) : Except PublisherError (GuestProgram × List Nat) :=
  match m with
  | .IsEven => .ok (.IS_EVEN_ELF, natToBeBytes 32 input)
  | .Jwt =>
    match sg.parseIssuer SECRET_KEY with
    | none => .error .issuerParseError
    | some iss =>
      match sg.generateToken iss { subject := "Hello, world!" } with
      | none => .error .signingError
      | some token =>
        match sg.serializeToken token with
        | none => .error .serializationError
        | some encoded => .ok (.JWT_ELF, encoded)

/-- The prover dispatch of `main` (lines 114–125): one match on `args.prover`,
calling the selected backend's `prove`. -/
def runProver (p : Prover)
    (bonsaiProve localProve : GuestProgram → List Nat → Except PublisherError ProofResult)
    (program : GuestProgram) (input : List Nat) : Except PublisherError ProofResult :=
  match p with
  | .Bonsai => bonsaiProve program input
  | .Local => localProve program input

/-- The journal-decoding and calldata-assembly step of `main` (lines 129–146):
for `IsEven`, decode the journal as a `U256` (`?` on failure) and encode a
`set` call with the decoded value; for `Jwt`, encode a `set_jwt` call with
the original `args.input`, the journal unused. -/
def buildCalldata (m : Method) (input : Nat) (journal digest sealBytes : List Nat) :
    Except PublisherError (List Nat) :=
  match m with
  | .IsEven =>
    match abiDecodeU256 journal with
    | none => .error .journalDecodeError
    | some x => .ok (encodeSetCall x digest sealBytes)
  | .Jwt => .ok (encodeSetJwtCall input digest sealBytes)

/-- The whole run of `main` after `TxSender::new`: encode the input, prove,
decode the journal and build the calldata; `.ok cd` is the calldata handed to
`tx_sender.send` on line 150, `.error` is an aborted run. -/
def mainRun {I T : Type} (sg : SignerOps I T)
    (m : Method) (p : Prover) (input : Nat)
    (bonsaiProve localProve : GuestProgram → List Nat → Except PublisherError ProofResult) :
    Except PublisherError (List Nat) := do
  let (program, encoded) ← encodeInput sg m input
  let r ← runProver p bonsaiProve localProve program encoded
  buildCalldata m input r.journal r.postStateDigest r.sealBytes

/-- The calldata values submitted to the chain in a run: `tx_sender.send` is
invoked exactly once, with the built calldata, and only when every earlier
step succeeded. -/
def submittedTransactions {I T : Type} (sg : SignerOps I T)
    (m : Method) (p : Prover) (input : Nat)
    (bonsaiProve localProve : GuestProgram → List Nat → Except PublisherError ProofResult) :
    List (List Nat) :=
  match mainRun sg m p input bonsaiProve localProve with
  | .ok cd => [cd]
  | .error _ => []

/-- The selector of the call built for each method. -/
def selectorFor : Method → List Nat
  | .IsEven => setSelector
  | .Jwt => setJwtSelector

/-- The call built for each method from `x`, digest and seal (the Calldata
Builder: `set` for `IsEven`, `set_jwt` for `Jwt`). -/
def calldataFor : Method → Nat → List Nat → List Nat → List Nat
  | .IsEven, x, d, s => encodeSetCall x d s
  | .Jwt, x, d, s => encodeSetJwtCall x d s

/-- The generated interface decoder for each method's call: checks the 4-byte
selector, then ABI-decodes the argument tuple. -/
def decodeCalldata (m : Method) (data : List Nat) : Option (Nat × List Nat × List Nat) :=
  if data.take 4 = selectorFor m then abiDecodeArgs (data.drop 4) else none

/-! ## Concrete collaborator stubs (for instantiating the theorems) -/

/-- A signer stub whose collaborators always succeed. -/
def okSigner : SignerOps Unit Unit where
  parseIssuer := fun _ => some ()
  generateToken := fun _ _ => some ()
  serializeToken := fun _ => some [1]

/-- A signer stub whose token-signing collaborator fails. -/
def failingSigner : SignerOps Unit Unit where
  parseIssuer := fun _ => some ()
  generateToken := fun _ _ => none
  serializeToken := fun _ => some [1]

/-- A prover stub returning a fixed `ProofResult`. -/
def constProver (r : ProofResult) :
    GuestProgram → List Nat → Except PublisherError ProofResult :=
  fun _ _ => .ok r

/-! ## Facts about big-endian byte encoding -/

theorem natToBeBytes_length (w n : Nat) : (natToBeBytes w n).length = w := by
  induction w generalizing n with
  | zero => rfl
  | succ w ih => simp [natToBeBytes, ih]

theorem natToBeBytes_bytes_lt (w n : Nat) : ∀ b ∈ natToBeBytes w n, b < 256 := by
  induction w generalizing n with
  | zero => simp [natToBeBytes]
  | succ w ih =>
    intro b hb
    simp only [natToBeBytes, List.mem_append, List.mem_singleton] at hb
    rcases hb with h | h
    · exact ih _ b h
    · omega

theorem beBytesToNat_foldl (a : Nat) (l : List Nat) :
    l.foldl (fun a b => a * 256 + b) a = a * 256 ^ l.length + beBytesToNat l := by
  induction l generalizing a with
  | nil => simp [beBytesToNat]
  | cons x xs ih =>
    simp only [List.foldl_cons, List.length_cons, beBytesToNat, Nat.zero_mul, Nat.zero_add]
    rw [ih (a * 256 + x), ih x]
    ring

theorem beBytesToNat_append (l₁ l₂ : List Nat) :
    beBytesToNat (l₁ ++ l₂) = beBytesToNat l₁ * 256 ^ l₂.length + beBytesToNat l₂ := by
  unfold beBytesToNat
  rw [List.foldl_append, beBytesToNat_foldl]
  rfl

theorem beBytesToNat_natToBeBytes_mod (w n : Nat) :
    beBytesToNat (natToBeBytes w n) = n % 256 ^ w := by
  induction w generalizing n with
  | zero => simp [natToBeBytes, beBytesToNat, Nat.mod_one]
  | succ w ih =>
    rw [natToBeBytes, beBytesToNat_append, ih]
    have h1 : beBytesToNat [n % 256] = n % 256 := by simp [beBytesToNat]
    have h2 : ([n % 256] : List Nat).length = 1 := rfl
    rw [h1, h2, pow_one]
    -- n % 256 ^ (w+1) = (n / 256 % 256 ^ w) * 256 + n % 256
    have hq : n / 256 = 256 ^ w * (n / 256 / 256 ^ w) + n / 256 % 256 ^ w :=
      (Nat.div_add_mod _ _).symm
    have hn : n = 256 * (n / 256) + n % 256 := (Nat.div_add_mod _ _).symm
    have hlt : (n / 256 % 256 ^ w) * 256 + n % 256 < 256 ^ (w + 1) := by
      have h3 : n / 256 % 256 ^ w < 256 ^ w := Nat.mod_lt _ (Nat.pos_pow_of_pos w (by omega))
      have h4 : n % 256 < 256 := Nat.mod_lt _ (by omega)
      calc (n / 256 % 256 ^ w) * 256 + n % 256
          ≤ (256 ^ w - 1) * 256 + 255 := by
            apply Nat.add_le_add
            · exact Nat.mul_le_mul_right _ (by omega)
            · omega
        _ < 256 ^ (w + 1) := by
            have : 1 ≤ 256 ^ w := Nat.one_le_pow _ _ (by omega)
            rw [pow_succ]
            calc (256 ^ w - 1) * 256 + 255 < (256 ^ w - 1) * 256 + 256 := by omega
              _ = (256 ^ w - 1 + 1) * 256 := by ring
              _ = 256 ^ w * 256 := by rw [Nat.sub_add_cancel this]
    have hsplit : n = 256 ^ (w + 1) * (n / 256 / 256 ^ w)
        + ((n / 256 % 256 ^ w) * 256 + n % 256) := by
      calc n = 256 * (n / 256) + n % 256 := hn
        _ = 256 * (256 ^ w * (n / 256 / 256 ^ w) + n / 256 % 256 ^ w) + n % 256 := by
              rw [← hq]
        _ = 256 ^ (w + 1) * (n / 256 / 256 ^ w) + ((n / 256 % 256 ^ w) * 256 + n % 256) := by
              rw [pow_succ]; ring
    calc (n / 256) % 256 ^ w * 256 + n % 256
        = (256 ^ (w + 1) * (n / 256 / 256 ^ w)
            + ((n / 256 % 256 ^ w) * 256 + n % 256)) % 256 ^ (w + 1) := by
          rw [Nat.mul_add_mod, Nat.mod_eq_of_lt hlt]
      _ = n % 256 ^ (w + 1) := by rw [← hsplit]

theorem beBytesToNat_natToBeBytes (w n : Nat) (h : n < 256 ^ w) :
    beBytesToNat (natToBeBytes w n) = n := by
  rw [beBytesToNat_natToBeBytes_mod, Nat.mod_eq_of_lt h]

theorem beBytesToNat_lt (bs : List Nat) (h : ∀ b ∈ bs, b < 256) :
    beBytesToNat bs < 256 ^ bs.length := by
  induction bs with
  | nil => simp [beBytesToNat]
  | cons x xs ih =>
    have hx : x < 256 := h x (List.mem_cons_self _ _)
    have hxs : beBytesToNat xs < 256 ^ xs.length :=
      ih (fun b hb => h b (List.mem_cons_of_mem _ hb))
    have : beBytesToNat (x :: xs) = x * 256 ^ xs.length + beBytesToNat xs := by
      have : (x :: xs) = [x] ++ xs := rfl
      rw [this, beBytesToNat_append]
      simp [beBytesToNat]
    rw [this, List.length_cons, pow_succ]
    calc x * 256 ^ xs.length + beBytesToNat xs
        ≤ 255 * 256 ^ xs.length + beBytesToNat xs := by
          apply Nat.add_le_add_right
          exact Nat.mul_le_mul_right _ (by omega)
      _ < 255 * 256 ^ xs.length + 256 ^ xs.length := by omega
      _ = 256 ^ xs.length * 256 := by ring

/-! ## Length facts about the hash and the encoders -/

theorem theta_length (A : List Nat) : (theta A).length = 25 := by
  simp [theta]

theorem rhoPi_length (A : List Nat) : (rhoPi A).length = 25 := by
  simp [rhoPi]

theorem chi_length (B : List Nat) : (chi B).length = 25 := by
  simp [chi]

theorem keccakRound_length (A : List Nat) (rc : Nat) : (keccakRound A rc).length = 25 := by
  simp [keccakRound, List.length_set, chi_length]

theorem foldl_keccakRound_length (rcs : List Nat) (A : List Nat) (h : A.length = 25) :
    (rcs.foldl keccakRound A).length = 25 := by
  induction rcs generalizing A with
  | nil => simpa using h
  | cons r rest ih => simpa using ih _ (keccakRound_length A r)

theorem keccakF_length (A : List Nat) (h : A.length = 25) : (keccakF A).length = 25 :=
  foldl_keccakRound_length keccakRC A h

theorem absorbBlock_length (st block : List Nat) : (absorbBlock st block).length = 25 := by
  unfold absorbBlock
  exact keccakF_length _ (by simp)

theorem absorbAll_length (fuel : Nat) (st msg : List Nat) (h : st.length = 25) :
    (absorbAll fuel st msg).length = 25 := by
  induction fuel generalizing st msg with
  | zero => simpa [absorbAll] using h
  | succ fuel ih =>
    rw [absorbAll]
    by_cases hm : msg.isEmpty
    · simpa [hm] using h
    · simpa [hm] using ih _ (msg.drop 136) (absorbBlock_length st (msg.take 136))

theorem laneToBytes_length (n : Nat) : (laneToBytes n).length = 8 := by
  simp [laneToBytes]

theorem flatten_map_laneToBytes_length (l : List Nat) :
    ((l.map laneToBytes).flatten).length = 8 * l.length := by
  induction l with
  | nil => simp
  | cons x xs ih =>
    simp only [List.map_cons, List.flatten_cons, List.length_append, laneToBytes_length,
      List.length_cons, ih]
    ring

theorem keccak256_length (msg : List Nat) : (keccak256 msg).length = 32 := by
  unfold keccak256
  rw [flatten_map_laneToBytes_length, List.length_take,
    absorbAll_length _ _ _ (List.length_replicate 25 0)]
  rfl

theorem selectorOf_length (sig : String) : (selectorOf sig).length = 4 := by
  unfold selectorOf
  rw [List.length_take, keccak256_length]
  rfl

theorem setSelector_length : setSelector.length = 4 := selectorOf_length _

theorem setJwtSelector_length : setJwtSelector.length = 4 := selectorOf_length _

theorem selectorFor_length (m : Method) : (selectorFor m).length = 4 := by
  cases m
  · exact setSelector_length
  · exact setJwtSelector_length

theorem ceil32_ge (n : Nat) : n ≤ ceil32 n := by
  unfold ceil32
  omega

theorem padRight32_length (s : List Nat) : (padRight32 s).length = ceil32 s.length := by
  have h := ceil32_ge s.length
  simp only [padRight32, List.length_append, List.length_replicate]
  omega

theorem abiEncodeArgs_length (x : Nat) (d s : List Nat) (hd : d.length = 32) :
    (abiEncodeArgs x d s).length = 128 + ceil32 s.length := by
  simp only [abiEncodeArgs, List.length_append, natToBeBytes_length, padRight32_length, hd]

theorem calldataFor_take4 (m : Method) (x : Nat) (d s : List Nat) :
    (calldataFor m x d s).take 4 = selectorFor m := by
  cases m
  · exact List.take_left' setSelector_length
  · exact List.take_left' setJwtSelector_length

theorem calldataFor_drop4 (m : Method) (x : Nat) (d s : List Nat) :
    (calldataFor m x d s).drop 4 = abiEncodeArgs x d s := by
  cases m
  · exact List.drop_left' setSelector_length
  · exact List.drop_left' setJwtSelector_length

theorem calldataFor_length (m : Method) (x : Nat) (d s : List Nat) (hd : d.length = 32) :
    (calldataFor m x d s).length = 132 + ceil32 s.length := by
  have h4 := selectorFor_length m
  have hargs := abiEncodeArgs_length x d s hd
  cases m
  · simp only [calldataFor, encodeSetCall, List.length_append, setSelector_length]
    simp only [calldataFor] at hargs ⊢
    omega
  · simp only [calldataFor, encodeSetJwtCall, List.length_append, setJwtSelector_length]
    simp only [calldataFor] at hargs ⊢
    omega

/-! ## The ABI round trip -/

theorem pow_256_32 : (256 : Nat) ^ 32 = 2 ^ 256 := by norm_num

theorem abiDecodeArgs_abiEncodeArgs (x : Nat) (d s : List Nat)
    (hx : x < 2 ^ 256) (hd : d.length = 32) (hs : s.length < 2 ^ 256) :
    abiDecodeArgs (abiEncodeArgs x d s) = some (x, d, s) := by
  have hA : (natToBeBytes 32 x).length = 32 := natToBeBytes_length _ _
  have hB : (natToBeBytes 32 96).length = 32 := natToBeBytes_length _ _
  have hC : (natToBeBytes 32 s.length).length = 32 := natToBeBytes_length _ _
  have hE : abiEncodeArgs x d s
      = natToBeBytes 32 x ++ (d ++ (natToBeBytes 32 96
          ++ (natToBeBytes 32 s.length ++ padRight32 s))) := by
    simp [abiEncodeArgs, List.append_assoc]
  have hlen : (abiEncodeArgs x d s).length = 128 + ceil32 s.length :=
    abiEncodeArgs_length x d s hd
  have e1 : (abiEncodeArgs x d s).take 32 = natToBeBytes 32 x := by
    rw [hE]; exact List.take_left' hA
  have e2 : (abiEncodeArgs x d s).drop 32
      = d ++ (natToBeBytes 32 96 ++ (natToBeBytes 32 s.length ++ padRight32 s)) := by
    rw [hE]; exact List.drop_left' hA
  have e3 : ((abiEncodeArgs x d s).drop 32).take 32 = d := by
    rw [e2]; exact List.take_left' hd
  have e4 : (abiEncodeArgs x d s).drop 64
      = natToBeBytes 32 96 ++ (natToBeBytes 32 s.length ++ padRight32 s) := by
    have h64 : abiEncodeArgs x d s
        = (natToBeBytes 32 x ++ d)
          ++ (natToBeBytes 32 96 ++ (natToBeBytes 32 s.length ++ padRight32 s)) := by
      rw [hE, List.append_assoc]
    rw [h64]
    exact List.drop_left' (by simp [hA, hd])
  have e5 : ((abiEncodeArgs x d s).drop 64).take 32 = natToBeBytes 32 96 := by
    rw [e4]; exact List.take_left' hB
  have e6 : (abiEncodeArgs x d s).drop 96
      = natToBeBytes 32 s.length ++ padRight32 s := by
    have h96 : abiEncodeArgs x d s
        = ((natToBeBytes 32 x ++ d) ++ natToBeBytes 32 96)
          ++ (natToBeBytes 32 s.length ++ padRight32 s) := by
      rw [hE]; simp [List.append_assoc]
    rw [h96]
    exact List.drop_left' (by simp [hA, hB, hd])
  have e7 : ((abiEncodeArgs x d s).drop 96).take 32 = natToBeBytes 32 s.length := by
    rw [e6]; exact List.take_left' hC
  have e8 : (abiEncodeArgs x d s).drop 128 = padRight32 s := by
    have h128 : abiEncodeArgs x d s
        = (((natToBeBytes 32 x ++ d) ++ natToBeBytes 32 96) ++ natToBeBytes 32 s.length)
          ++ padRight32 s := by
      rw [hE]; simp [List.append_assoc]
    rw [h128]
    exact List.drop_left' (by simp [hA, hB, hC, hd])
  have e9 : (padRight32 s).take s.length = s := by
    unfold padRight32
    exact List.take_left' rfl
  have vx : beBytesToNat (natToBeBytes 32 x) = x :=
    beBytesToNat_natToBeBytes 32 x (by rw [pow_256_32]; exact hx)
  have voff : beBytesToNat (natToBeBytes 32 96) = 96 :=
    beBytesToNat_natToBeBytes 32 96 (by norm_num)
  have vlen : beBytesToNat (natToBeBytes 32 s.length) = s.length :=
    beBytesToNat_natToBeBytes 32 s.length (by rw [pow_256_32]; exact hs)
  unfold abiDecodeArgs
  rw [if_pos (by omega : 128 ≤ (abiEncodeArgs x d s).length)]
  simp only [e1, e3, e5, e7, e8, e9, vx, voff, vlen, hlen]
  simp

theorem decodeCalldata_calldataFor (m : Method) (x : Nat) (d s : List Nat)
    (hx : x < 2 ^ 256) (hd : d.length = 32) (hs : s.length < 2 ^ 256) :
    decodeCalldata m (calldataFor m x d s) = some (x, d, s) := by
  unfold decodeCalldata
  rw [calldataFor_take4, if_pos rfl, calldataFor_drop4]
  exact abiDecodeArgs_abiEncodeArgs x d s hx hd hs

/-! ## The claims -/

/-- C1: For every method, for every decoded output `x`, 32-byte state digest
and seal, the built call data begins with the 4-byte selector of that method's
target function signature (`set` for the numeric-check method, `set_jwt` for
token issuance), has exactly the ABI tuple-encoded length, and ABI-decoding it
with the corresponding function's decoder reproduces the supplied
`(x, digest, seal)` triple. -/
theorem calldata_selector_and_roundtrip (m : Method) (x : Nat) (d s : List Nat)
    (hx : x < 2 ^ 256) (hd : d.length = 32) (hs : s.length < 2 ^ 256) :
    (calldataFor m x d s).take 4 = selectorFor m
    ∧ (calldataFor m x d s).length = 132 + ceil32 s.length
    ∧ decodeCalldata m (calldataFor m x d s) = some (x, d, s) :=
  ⟨calldataFor_take4 m x d s, calldataFor_length m x d s hd,
   decodeCalldata_calldataFor m x d s hx hd hs⟩

/-- Witness for C1 at a concrete input. -/
theorem calldata_selector_and_roundtrip_witness :
    (4 < 2 ^ 256 ∧ (List.replicate 32 0 : List Nat).length = 32
      ∧ ([171] : List Nat).length < 2 ^ 256)
    ∧ ((calldataFor .IsEven 4 (List.replicate 32 0) [171]).take 4 = selectorFor .IsEven
      ∧ (calldataFor .IsEven 4 (List.replicate 32 0) [171]).length
          = 132 + ceil32 ([171] : List Nat).length
      ∧ decodeCalldata .IsEven (calldataFor .IsEven 4 (List.replicate 32 0) [171])
          = some (4, List.replicate 32 0, [171])) :=
  ⟨⟨by decide, by decide, by decide⟩,
   calldata_selector_and_roundtrip .IsEven 4 (List.replicate 32 0) [171]
     (by decide) (by decide) (by decide)⟩

/-- C2: the on-chain `x` argument per method: for the numeric-check method the
built call carries the integer decoded from the journal (forwarded, not merely
validated), and for the token-issuance method it carries the original request
input, not anything derived from the journal. -/
theorem x_argument_source (input : Nat) (j d s : List Nat)
    (hin : input < 2 ^ 256) (hj : j.length = 32) (hjb : ∀ b ∈ j, b < 256)
    (hd : d.length = 32) (hs : s.length < 2 ^ 256) :
    buildCalldata .IsEven input j d s = .ok (encodeSetCall (beBytesToNat j) d s)
    ∧ decodeCalldata .IsEven (encodeSetCall (beBytesToNat j) d s)
        = some (beBytesToNat j, d, s)
    ∧ buildCalldata .Jwt input j d s = .ok (encodeSetJwtCall input d s)
    ∧ decodeCalldata .Jwt (encodeSetJwtCall input d s) = some (input, d, s) := by
  have hjlt : beBytesToNat j < 2 ^ 256 := by
    have h := beBytesToNat_lt j hjb
    rwa [hj, pow_256_32] at h
  refine ⟨?_, ?_, ?_, ?_⟩
  · simp [buildCalldata, abiDecodeU256, hj]
  · exact decodeCalldata_calldataFor .IsEven (beBytesToNat j) d s hjlt hd hs
  · rfl
  · exact decodeCalldata_calldataFor .Jwt input d s hin hd hs

/-- Witness for C2 at a concrete input (journal = 32-byte encoding of 4). -/
theorem x_argument_source_witness :
    (7 < 2 ^ 256 ∧ (List.replicate 31 0 ++ [4] : List Nat).length = 32
      ∧ (∀ b ∈ (List.replicate 31 0 ++ [4] : List Nat), b < 256)
      ∧ (List.replicate 32 2 : List Nat).length = 32
      ∧ ([205] : List Nat).length < 2 ^ 256)
    ∧ buildCalldata .IsEven 7 (List.replicate 31 0 ++ [4]) (List.replicate 32 2) [205]
        = .ok (encodeSetCall (beBytesToNat (List.replicate 31 0 ++ [4]))
            (List.replicate 32 2) [205])
    ∧ buildCalldata .Jwt 7 (List.replicate 31 0 ++ [4]) (List.replicate 32 2) [205]
        = .ok (encodeSetJwtCall 7 (List.replicate 32 2) [205]) := by
  have h := x_argument_source 7 (List.replicate 31 0 ++ [4]) (List.replicate 32 2) [205]
    (by decide) (by decide) (by decide) (by decide) (by decide)
  exact ⟨⟨by decide, by decide, by decide, by decide, by decide⟩, h.1, h.2.2.1⟩

/-- C3: backend substitution: if the remote and local prover backends return
the identical `ProofResult` on the dispatched `(program, input)` pair, the
run's result — in particular the built `CallData` — is byte-identical
regardless of which backend variant was selected. -/
theorem backend_substitution {I T : Type} (sg : SignerOps I T) (m : Method) (x : Nat)
    (bonsaiProve localProve : GuestProgram → List Nat → Except PublisherError ProofResult)
    (h : ∀ prog encoded, encodeInput sg m x = .ok (prog, encoded) →
      bonsaiProve prog encoded = localProve prog encoded) :
    mainRun sg m .Bonsai x bonsaiProve localProve
      = mainRun sg m .Local x bonsaiProve localProve := by
  unfold mainRun
  cases hE : encodeInput sg m x with
  | error e => rfl
  | ok pe =>
    obtain ⟨prog, encoded⟩ := pe
    simp only [bind, Except.bind, runProver, h prog encoded hE]

/-- Witness for C3 at a concrete input with a shared prover stub. -/
theorem backend_substitution_witness :
    (∀ prog encoded, encodeInput okSigner .IsEven 4 = .ok (prog, encoded) →
      constProver ⟨List.replicate 32 0, List.replicate 32 0, [2]⟩ prog encoded
        = constProver ⟨List.replicate 32 0, List.replicate 32 0, [2]⟩ prog encoded)
    ∧ mainRun okSigner .IsEven .Bonsai 4
        (constProver ⟨List.replicate 32 0, List.replicate 32 0, [2]⟩)
        (constProver ⟨List.replicate 32 0, List.replicate 32 0, [2]⟩)
      = mainRun okSigner .IsEven .Local 4
        (constProver ⟨List.replicate 32 0, List.replicate 32 0, [2]⟩)
        (constProver ⟨List.replicate 32 0, List.replicate 32 0, [2]⟩) :=
  ⟨fun _ _ _ => rfl,
   backend_substitution okSigner .IsEven 4 _ _ (fun _ _ _ => rfl)⟩

/-- C4: for the numeric-check method, journal decoding fails (and the run
aborts with the journal-decode error) exactly when the journal is not a
32-byte big-endian integer encoding; on every exact 32-byte encoding it
succeeds and returns the encoded integer. -/
theorem journal_decode_exact (j : List Nat) (hjb : ∀ b ∈ j, b < 256) :
    (j.length ≠ 32 → abiDecodeU256 j = none
      ∧ ∀ input d s, buildCalldata .IsEven input j d s = .error .journalDecodeError)
    ∧ (j.length = 32 → abiDecodeU256 j = some (beBytesToNat j)
      ∧ beBytesToNat j < 2 ^ 256)
    ∧ (∀ x, x < 2 ^ 256 → abiDecodeU256 (natToBeBytes 32 x) = some x) := by
  refine ⟨?_, ?_, ?_⟩
  · intro hne
    have h1 : abiDecodeU256 j = none := by simp [abiDecodeU256, hne]
    exact ⟨h1, fun input d s => by simp [buildCalldata, h1]⟩
  · intro h32
    refine ⟨by simp [abiDecodeU256, h32], ?_⟩
    have h := beBytesToNat_lt j hjb
    rwa [h32, pow_256_32] at h
  · intro x hx
    have hv : beBytesToNat (natToBeBytes 32 x) = x :=
      beBytesToNat_natToBeBytes 32 x (by rwa [pow_256_32])
    simp [abiDecodeU256, natToBeBytes_length, hv]

/-- Witness for C4 at concrete journals of lengths 1 and 32. -/
theorem journal_decode_exact_witness :
    (∀ b ∈ ([7] : List Nat), b < 256)
    ∧ (([7] : List Nat).length ≠ 32 → abiDecodeU256 [7] = none
      ∧ ∀ input d s, buildCalldata .IsEven input [7] d s = .error .journalDecodeError)
    ∧ (∀ b ∈ (List.replicate 32 3 : List Nat), b < 256)
    ∧ abiDecodeU256 (List.replicate 32 3)
        = some (beBytesToNat (List.replicate 32 3)) :=
  ⟨by decide, (journal_decode_exact [7] (by decide)).1,
   by decide,
   ((journal_decode_exact (List.replicate 32 3) (by decide)).2.1 (by decide)).1⟩

/-- C5: the Input Encoder on the numeric-check method produces the fixed-width
32-byte big-endian encoding of the 256-bit input, and big-endian decoding of
those bytes recovers the input exactly. -/
theorem input_encoding_roundtrip {I T : Type} (sg : SignerOps I T) (x : Nat)
    (hx : x < 2 ^ 256) :
    encodeInput sg .IsEven x = .ok (.IS_EVEN_ELF, natToBeBytes 32 x)
    ∧ (natToBeBytes 32 x).length = 32
    ∧ (∀ b ∈ natToBeBytes 32 x, b < 256)
    ∧ beBytesToNat (natToBeBytes 32 x) = x :=
  ⟨rfl, natToBeBytes_length _ _, natToBeBytes_bytes_lt _ _,
   beBytesToNat_natToBeBytes 32 x (by rwa [pow_256_32])⟩

/-- Witness for C5 at `x = 4`. -/
theorem input_encoding_roundtrip_witness :
    4 < 2 ^ 256
    ∧ (encodeInput okSigner .IsEven 4 = .ok (.IS_EVEN_ELF, natToBeBytes 32 4)
      ∧ (natToBeBytes 32 4).length = 32
      ∧ (∀ b ∈ natToBeBytes 32 4, b < 256)
      ∧ beBytesToNat (natToBeBytes 32 4) = 4) :=
  ⟨by decide, input_encoding_roundtrip okSigner 4 (by decide)⟩

/-- C6: if input encoding or journal decoding fails, the run aborts with that
error and the Transaction Submitter is never invoked: no partial on-chain
submission is attempted after a decode or encode failure. -/
theorem no_submission_after_failure {I T : Type} (sg : SignerOps I T)
    (m : Method) (p : Prover) (x : Nat)
    (bonsaiProve localProve : GuestProgram → List Nat → Except PublisherError ProofResult)
    (e : PublisherError)
    (h : encodeInput sg m x = .error e ∨
      ∃ prog encoded r, encodeInput sg m x = .ok (prog, encoded)
        ∧ runProver p bonsaiProve localProve prog encoded = .ok r
        ∧ buildCalldata m x r.journal r.postStateDigest r.sealBytes = .error e) :
    mainRun sg m p x bonsaiProve localProve = .error e
    ∧ submittedTransactions sg m p x bonsaiProve localProve = [] := by
  have hrun : mainRun sg m p x bonsaiProve localProve = .error e := by
    rcases h with h | ⟨prog, encoded, r, hE, hP, hB⟩
    · unfold mainRun
      rw [h]
      rfl
    · unfold mainRun
      rw [hE]
      simp only [bind, Except.bind]
      rw [hP]
      simpa using hB
  refine ⟨hrun, ?_⟩
  unfold submittedTransactions
  rw [hrun]

/-- Witness for C6: a signing failure in the token-issuance method aborts the
run before any submission. -/
theorem no_submission_after_failure_witness :
    (encodeInput failingSigner .Jwt 5 = .error .signingError ∨
      ∃ prog encoded r, encodeInput failingSigner .Jwt 5 = .ok (prog, encoded)
        ∧ runProver .Local (constProver ⟨[], List.replicate 32 0, []⟩)
            (constProver ⟨[], List.replicate 32 0, []⟩) prog encoded = .ok r
        ∧ buildCalldata .Jwt 5 r.journal r.postStateDigest r.sealBytes
            = .error .signingError)
    ∧ mainRun failingSigner .Jwt .Local 5
        (constProver ⟨[], List.replicate 32 0, []⟩)
        (constProver ⟨[], List.replicate 32 0, []⟩) = .error .signingError
    ∧ submittedTransactions failingSigner .Jwt .Local 5
        (constProver ⟨[], List.replicate 32 0, []⟩)
        (constProver ⟨[], List.replicate 32 0, []⟩) = [] := by
  have h := no_submission_after_failure failingSigner .Jwt .Local 5
    (constProver ⟨[], List.replicate 32 0, []⟩)
    (constProver ⟨[], List.replicate 32 0, []⟩) .signingError (Or.inl rfl)
  exact ⟨Or.inl rfl, h.1, h.2⟩

/-- C7 counterexample: the claim says the build step fails (with an
ABI-encode error) when the seal is empty; in the code the build is the
infallible `abi_encode` and it succeeds on an empty seal for both methods —
producing well-formed, decodable call data. -/
theorem build_ok_on_empty_seal :
    buildCalldata .Jwt 5 [1] (List.replicate 32 0) []
      = .ok (encodeSetJwtCall 5 (List.replicate 32 0) [])
    ∧ buildCalldata .IsEven 5 (List.replicate 32 1) (List.replicate 32 0) []
      = .ok (encodeSetCall (beBytesToNat (List.replicate 32 1))
          (List.replicate 32 0) [])
    ∧ decodeCalldata .Jwt (encodeSetJwtCall 5 (List.replicate 32 0) [])
      = some (5, List.replicate 32 0, []) := by
  refine ⟨rfl, ?_, ?_⟩
  · simp [buildCalldata, abiDecodeU256]
  · exact decodeCalldata_calldataFor .Jwt 5 (List.replicate 32 0) []
      (by decide) (by decide) (by decide)

/-- C7 amended: the build step of lines 129–146 cannot fail on the digest or
the seal at all: the digest is exactly 32 bytes by construction of the prover
interface type, the build succeeds for every seal including the empty one,
and its only failure cause is journal decoding for the numeric-check method. -/
theorem build_infallible_in_digest_and_seal (m : Method) (input : Nat)
    (j d s : List Nat) :
    (m = .Jwt → buildCalldata m input j d s = .ok (encodeSetJwtCall input d s))
    ∧ (m = .IsEven → j.length = 32 →
        buildCalldata m input j d s = .ok (encodeSetCall (beBytesToNat j) d s))
    ∧ (∀ e, buildCalldata m input j d s = .error e →
        m = .IsEven ∧ e = .journalDecodeError ∧ j.length ≠ 32) := by
  refine ⟨?_, ?_, ?_⟩
  · rintro rfl
    rfl
  · rintro rfl h32
    simp [buildCalldata, abiDecodeU256, h32]
  · intro e he
    cases m with
    | Jwt => simp [buildCalldata] at he
    | IsEven =>
      by_cases h32 : j.length = 32
      · have hok : buildCalldata .IsEven input j d s
            = .ok (encodeSetCall (beBytesToNat j) d s) := by
          simp [buildCalldata, abiDecodeU256, h32]
        rw [hok] at he
        cases he
      · have herr : buildCalldata .IsEven input j d s = .error .journalDecodeError := by
          simp [buildCalldata, abiDecodeU256, h32]
        rw [herr] at he
        injection he with he'
        exact ⟨rfl, he'.symm, h32⟩

/-- Witness for the amended C7: the build succeeds on an empty digest-and-seal
shaped run with the token-issuance method. -/
theorem build_infallible_in_digest_and_seal_witness :
    buildCalldata .Jwt 9 [] (List.replicate 32 0) []
      = .ok (encodeSetJwtCall 9 (List.replicate 32 0) []) :=
  (build_infallible_in_digest_and_seal .Jwt 9 [] (List.replicate 32 0) []).1 rfl

/-- C8 counterexample: the claim says a token-issuance run with an empty
journal does not proceed to submission; in the code the journal is never
inspected in the `Jwt` arm, and a run whose prover returns an empty journal
succeeds and submits a transaction. -/
theorem empty_journal_run_submits :
    (submittedTransactions okSigner .Jwt .Local 7
        (constProver ⟨[], List.replicate 32 0, [205]⟩)
        (constProver ⟨[], List.replicate 32 0, [205]⟩)).length = 1
    ∧ mainRun okSigner .Jwt .Local 7
        (constProver ⟨[], List.replicate 32 0, [205]⟩)
        (constProver ⟨[], List.replicate 32 0, [205]⟩)
      = .ok (encodeSetJwtCall 7 (List.replicate 32 0) [205]) :=
  ⟨rfl, rfl⟩

/-- C8 amended: for the token-issuance method the journal is entirely opaque
to the pipeline: it is not decoded into a structured value and no requirement
— not even non-emptiness — is imposed on it; the run's calldata is the
`set_jwt` call on the original input, whatever the journal bytes are. -/
theorem jwt_journal_opaque {I T : Type} (sg : SignerOps I T) (x : Nat)
    (j d s : List Nat)
    (bF : GuestProgram → List Nat → Except PublisherError ProofResult)
    (prog : GuestProgram) (encoded : List Nat)
    (henc : encodeInput sg .Jwt x = .ok (prog, encoded)) :
    mainRun sg .Jwt .Local x bF (constProver ⟨j, d, s⟩)
      = .ok (encodeSetJwtCall x d s) := by
  unfold mainRun
  rw [henc]
  rfl

/-- Witness for the amended C8, with an empty journal. -/
theorem jwt_journal_opaque_witness :
    encodeInput okSigner .Jwt 7 = .ok (.JWT_ELF, [1])
    ∧ mainRun okSigner .Jwt .Local 7
        (constProver ⟨[], List.replicate 32 0, [205]⟩)
        (constProver ⟨[], List.replicate 32 0, [205]⟩)
      = .ok (encodeSetJwtCall 7 (List.replicate 32 0) [205]) :=
  ⟨rfl, jwt_journal_opaque okSigner 7 [] (List.replicate 32 0) [205]
    (constProver ⟨[], List.replicate 32 0, [205]⟩) .JWT_ELF [1] rfl⟩

/-- C9: the Input Encoder never fails on the numeric-check method (every
256-bit input is structurally valid, so there is no `EncodingError` case to
hit); for token issuance a failure to sign the claims aborts with the signing
error, a failure to serialize the signed token aborts with the serialization
error, and otherwise the encoder returns the method's fixed guest program and
the serialized input bytes. -/
theorem input_encoder_error_contract {I T : Type} (sg : SignerOps I T)
    (m : Method) (x : Nat) :
    (m = .IsEven → encodeInput sg m x = .ok (.IS_EVEN_ELF, natToBeBytes 32 x))
    ∧ (m = .Jwt → sg.parseIssuer SECRET_KEY = none →
        encodeInput sg m x = .error .issuerParseError)
    ∧ (m = .Jwt → ∀ iss, sg.parseIssuer SECRET_KEY = some iss →
        (sg.generateToken iss ⟨"Hello, world!"⟩ = none →
          encodeInput sg m x = .error .signingError)
        ∧ (∀ tok, sg.generateToken iss ⟨"Hello, world!"⟩ = some tok →
            (sg.serializeToken tok = none →
              encodeInput sg m x = .error .serializationError)
            ∧ (∀ bs, sg.serializeToken tok = some bs →
                encodeInput sg m x = .ok (.JWT_ELF, bs)))) := by
  refine ⟨?_, ?_, ?_⟩
  · rintro rfl
    rfl
  · rintro rfl hp
    simp [encodeInput, hp]
  · rintro rfl iss hp
    refine ⟨fun hg => by simp [encodeInput, hp, hg], fun tok hg => ?_⟩
    exact ⟨fun hser => by simp [encodeInput, hp, hg, hser],
      fun bs hser => by simp [encodeInput, hp, hg, hser]⟩

/-- Witness for C9: the signing-failure path at a concrete signer. -/
theorem input_encoder_error_contract_witness :
    (failingSigner.parseIssuer SECRET_KEY = some ()
      ∧ failingSigner.generateToken () ⟨"Hello, world!"⟩ = none)
    ∧ encodeInput failingSigner .Jwt 3 = .error .signingError :=
  ⟨⟨rfl, rfl⟩,
   ((input_encoder_error_contract failingSigner .Jwt 3).2.2 rfl () rfl).1 rfl⟩

/-- C10: for the token-issuance method, the bytes sent to the prover are
computed only from the fixed claims and the signing key — so they are
independent of the raw input value — the run's calldata is independent of the
journal bytes returned by the prover, and the raw input influences only the
32-byte `x` word right after the 4-byte selector of the `set_jwt` call. -/
theorem jwt_noninterference {I T : Type} (sg : SignerOps I T) (x₁ x₂ : Nat)
    (j₁ j₂ d s : List Nat)
    (bF : GuestProgram → List Nat → Except PublisherError ProofResult) :
    encodeInput sg .Jwt x₁ = encodeInput sg .Jwt x₂
    ∧ mainRun sg .Jwt .Local x₁ bF (constProver ⟨j₁, d, s⟩)
        = mainRun sg .Jwt .Local x₁ bF (constProver ⟨j₂, d, s⟩)
    ∧ (encodeSetJwtCall x₁ d s).take 4 = (encodeSetJwtCall x₂ d s).take 4
    ∧ (encodeSetJwtCall x₁ d s).drop 36 = (encodeSetJwtCall x₂ d s).drop 36
    ∧ ((encodeSetJwtCall x₁ d s).drop 4).take 32 = natToBeBytes 32 x₁ := by
  have hsplit : ∀ x : Nat, encodeSetJwtCall x d s
      = (setJwtSelector ++ natToBeBytes 32 x)
        ++ (d ++ (natToBeBytes 32 96 ++ (natToBeBytes 32 s.length ++ padRight32 s))) := by
    intro x
    simp [encodeSetJwtCall, abiEncodeArgs, List.append_assoc]
  have hlen36 : ∀ x : Nat, (setJwtSelector ++ natToBeBytes 32 x).length = 36 := by
    intro x
    simp [List.length_append, setJwtSelector_length, natToBeBytes_length]
  refine ⟨rfl, ?_, ?_, ?_, ?_⟩
  · cases hE : encodeInput sg .Jwt x₁ with
    | error e =>
      unfold mainRun
      rw [hE]
      rfl
    | ok pe =>
      unfold mainRun
      rw [hE]
      rfl
  · rw [show encodeSetJwtCall x₁ d s = setJwtSelector ++ abiEncodeArgs x₁ d s from rfl,
      show encodeSetJwtCall x₂ d s = setJwtSelector ++ abiEncodeArgs x₂ d s from rfl,
      List.take_left' setJwtSelector_length, List.take_left' setJwtSelector_length]
  · rw [hsplit x₁, hsplit x₂, List.drop_left' (hlen36 x₁), List.drop_left' (hlen36 x₂)]
  · rw [show (encodeSetJwtCall x₁ d s).drop 4 = abiEncodeArgs x₁ d s from
      List.drop_left' setJwtSelector_length]
    rw [show abiEncodeArgs x₁ d s = natToBeBytes 32 x₁
        ++ (d ++ (natToBeBytes 32 96 ++ (natToBeBytes 32 s.length ++ padRight32 s))) from
      by simp [abiEncodeArgs, List.append_assoc]]
    exact List.take_left' (natToBeBytes_length _ _)

end Publisher
